import Mathlib

/-!
Shallow embedding of `src/download.mjs` (a batch controller around an external
media downloader): CLI argument parsing, interactive format resolution, the
per-job retry wrapper, the yt-dlp option-bag builder, the bounded-concurrency
pump scheduler, and the final run reporter.

JavaScript runtime details are modelled explicitly:
 * `JSVal`-style optional strings become `Option String`; `undefined`/`null`
   both map to `none`, and JS truthiness of a string value is `none ↦ false`,
   `some "" ↦ false`, otherwise `true`.
 * `Number(x)` is modelled by `jsNumber` on integer literals (trimmed decimal
   digits with optional leading minus; the empty/whitespace string gives 0);
   every other string, and `undefined`, gives `JSNum.nan`.  JS comparisons
   against `NaN` are false, modelled by `jsLtNum`/`jsGeNum`/`jsLeNum`.
 * `process.exit(1)` inside parsing becomes `Except.error 1`.
-/

namespace Download

/-- A JavaScript number as produced by `Number(...)` on CLI values: either a
NaN or an integer value. -/
inductive JSNum where
  | nan
  | val (n : Int)
deriving DecidableEq, Repr

/-- ASCII whitespace, for the JS `trim()` and `Number(...)` coercions
(the full JS versions also strip rarer Unicode space characters, which cannot
occur in this CLI's flag values). -/
def isJsWs (c : Char) : Bool :=
  c = ' ' || c = '\t' || c = '\n' || c = '\r'

/-- JS `s.trim()`: strip leading and trailing whitespace. -/
def jsTrim (s : String) : String :=
  ⟨((s.data.dropWhile isJsWs).reverse.dropWhile isJsWs).reverse⟩

/-- The numeric value of a nonempty all-digit character list, `none`
otherwise. -/
def digitsVal? (l : List Char) : Option Nat :=
  match l with
  | [] => none
  | _ =>
    l.foldl
      (fun acc c =>
        acc.bind fun n =>
          if 48 ≤ c.toNat ∧ c.toNat ≤ 57 then some (10 * n + (c.toNat - 48)) else none)
      (some 0)

/-- Model of JS `Number(s)` (with `s` possibly `undefined = none`), restricted
to the integer literals that can appear on this CLI: trimmed decimal digits
with an optional leading minus parse to their value, the empty/whitespace
string parses to 0, and everything else (including `undefined`) is NaN. -/
def jsNumber : Option String → JSNum
  | none => .nan
  | some s =>
    let t := jsTrim s
    if t = "" then .val 0
    else
      match t.data with
      | '-' :: ds =>
        match digitsVal? ds with
        | some n => .val (-(n : Int))
        | none => .nan
      | ds =>
        match digitsVal? ds with
        | some n => .val (n : Int)
        | none => .nan

/-- JS truthiness of an optional string: `undefined`, `null` and `""` are
falsy, any other string is truthy. -/
def truthy : Option String → Bool
  | none => false
  | some s => s ≠ ""

/-- JS `a < x` for a nonnegative integer `a` and a `JSNum` `x`
(false when `x` is NaN). -/
def jsLtNum (a : Nat) : JSNum → Bool
  | .nan => false
  | .val n => (a : Int) < n

/-- JS `a >= x` for a nonnegative integer `a` and a `JSNum` `x`
(false when `x` is NaN). -/
def jsGeNum (a : Nat) : JSNum → Bool
  | .nan => false
  | .val n => (a : Int) ≥ n

/-- JS `a <= x` for a nonnegative integer `a` and a `JSNum` `x`
(false when `x` is NaN). -/
def jsLeNum (a : Nat) : JSNum → Bool
  | .nan => false
  | .val n => (a : Int) ≤ n

/-- `args.x || d` on an optional string, as used for
`args.format || DEFAULT_FORMAT_FALLBACK`: falsy values select the default. -/
def jsOrStr (o : Option String) (d : String) : String :=
  match o with
  | none => d
  | some s => if s = "" then d else s

/-- `...(cond-on-value ? { k: v } : {})`: keep an optional string field only
when it is truthy. -/
def keepTruthy (o : Option String) : Option String :=
  if truthy o then o else none

/-- `DEFAULT_OUTPUT_TEMPLATE` from download.mjs line 13. -/
def DEFAULT_OUTPUT_TEMPLATE : String := "%(uploader)s/%(title).200Bs-%(id)s.%(ext)s"

/-- `DEFAULT_CONCURRENCY` from download.mjs line 14. -/
def DEFAULT_CONCURRENCY : Int := 2

/-- `DEFAULT_SUB_LANG` from download.mjs line 15. -/
def DEFAULT_SUB_LANG : String := "en"

/-- `MAX_RETRIES` from download.mjs line 16. -/
def MAX_RETRIES : Int := 2

/-- `DEFAULT_FORMAT_FALLBACK` from download.mjs line 19. -/
def DEFAULT_FORMAT_FALLBACK : String :=
  "bestvideo[ext=mp4][height<=1080]+bestaudio[ext=m4a]/best[ext=mp4]"

/-- The mutable `args` object built by `parseArgs` (download.mjs lines 22-50),
with the initial values of line 22-50 as field defaults. -/
structure Args where
  urls : List String := []
  format : Option String := none
  formatProvided : Bool := false
  audioOnly : Bool := false
  audioFormat : Option String := some "m4a"
  outDir : Option String := some "./downloads"
  outTemplate : Option String := some DEFAULT_OUTPUT_TEMPLATE
  playlist : Bool := true
  rateLimit : Option String := none
  retries : JSNum := .val MAX_RETRIES
  subs : Bool := false
  subsLang : Option String := some DEFAULT_SUB_LANG
  subsEmbed : Bool := true
  fromFile : Option String := none
  cookies : Option String := none
  proxy : Option String := none
  concurrent : JSNum := .val DEFAULT_CONCURRENCY
  noMtime : Bool := true
  geoBypass : Bool := true
  extractorArgs : Option String := none
  geoBypassCountry : Option String := none
  verbose : Bool := false
  update : Bool := false
  noPrompt : Bool := false
deriving DecidableEq, Repr

/-- The default `args` record before the option loop runs. -/
def initArgs : Args := {}

/-- `v.startsWith("-")` from the `default:` case of the option switch. -/
def startsWithDash (s : String) : Bool :=
  match s.data with
  | [] => false
  | c :: _ => c = '-'

/-- The `for (let cur = it.next(); ...)` switch loop of `parseArgs`
(download.mjs lines 56-90).  A value-taking flag reads `it.next().value`,
which is `undefined` (modelled `none`) when the flag is the last token; the
loop then observes `done` and returns.  An unknown `-`-prefixed token calls
`process.exit(1)`, modelled as `Except.error 1`; any other token is pushed
onto `urls`. -/
def parseLoop : List String → Args → Except Nat Args
  | [], a => .ok a
  | v :: rest, a =>
    if v = "--format" then
      match rest with
      | [] => .ok { a with format := none, formatProvided := true }
      | x :: r => parseLoop r { a with format := some x, formatProvided := true }
    else if v = "--audio" then parseLoop rest { a with audioOnly := true }
    else if v = "--audioFormat" then
      match rest with
      | [] => .ok { a with audioFormat := none }
      | x :: r => parseLoop r { a with audioFormat := some x }
    else if v = "--outDir" then
      match rest with
      | [] => .ok { a with outDir := none }
      | x :: r => parseLoop r { a with outDir := some x }
    else if v = "--outTemplate" then
      match rest with
      | [] => .ok { a with outTemplate := none }
      | x :: r => parseLoop r { a with outTemplate := some x }
    else if v = "--noPlaylist" then parseLoop rest { a with playlist := false }
    else if v = "--rateLimit" then
      match rest with
      | [] => .ok { a with rateLimit := none }
      | x :: r => parseLoop r { a with rateLimit := some x }
    else if v = "--retries" then
      match rest with
      | [] => .ok { a with retries := jsNumber none }
      | x :: r => parseLoop r { a with retries := jsNumber (some x) }
    else if v = "--subs" then parseLoop rest { a with subs := true }
    else if v = "--lang" then
      match rest with
      | [] => .ok { a with subsLang := none }
      | x :: r => parseLoop r { a with subsLang := some x }
    else if v = "--noEmbedSubs" then parseLoop rest { a with subsEmbed := false }
    else if v = "--fromFile" then
      match rest with
      | [] => .ok { a with fromFile := none }
      | x :: r => parseLoop r { a with fromFile := some x }
    else if v = "--cookies" then
      match rest with
      | [] => .ok { a with cookies := none }
      | x :: r => parseLoop r { a with cookies := some x }
    else if v = "--proxy" then
      match rest with
      | [] => .ok { a with proxy := none }
      | x :: r => parseLoop r { a with proxy := some x }
    else if v = "--concurrent" then
      match rest with
      | [] => .ok { a with concurrent := jsNumber none }
      | x :: r => parseLoop r { a with concurrent := jsNumber (some x) }
    else if v = "--noMtime" then parseLoop rest { a with noMtime := true }
    else if v = "--keepMtime" then parseLoop rest { a with noMtime := false }
    else if v = "--noGeoBypass" then parseLoop rest { a with geoBypass := false }
    else if v = "--geo" then
      match rest with
      | [] => .ok { a with geoBypassCountry := none }
      | x :: r => parseLoop r { a with geoBypassCountry := some x }
    else if v = "--extractorArgs" then
      match rest with
      | [] => .ok { a with extractorArgs := none }
      | x :: r => parseLoop r { a with extractorArgs := some x }
    else if v = "--verbose" then parseLoop rest { a with verbose := true }
    else if v = "--update" then parseLoop rest { a with update := true }
    else if v = "--noPrompt" then parseLoop rest { a with noPrompt := true }
    else if startsWithDash v then .error 1
    else parseLoop rest { a with urls := a.urls ++ [v] }

/-- Worker for `splitJsLines`: `acc` holds the current line reversed. -/
def splitJsLinesAux : List Char → List Char → List String
  | [], acc => [⟨acc.reverse⟩]
  | c :: cs, acc =>
    if c = '\n' then
      (match acc with
        | '\r' :: acc2 => (⟨acc2.reverse⟩ : String)
        | _ => (⟨acc.reverse⟩ : String)) :: splitJsLinesAux cs []
    else splitJsLinesAux cs (c :: acc)

/-- `data.split(/\r?\n/)`: split on line feeds, where each separator consumes
at most one carriage return directly before the line feed. -/
def splitJsLines (s : String) : List String :=
  splitJsLinesAux s.data []

/-- Batch-file postprocessing of download.mjs line 94:
`split(/\r?\n/).map(s => s.trim()).filter(Boolean)`. -/
def batchFileLines (data : String) : List String :=
  ((splitJsLines data).map jsTrim).filter (fun s => s ≠ "")

/-- `parseArgs(argv)` (download.mjs lines 21-128): run the option loop on
`argv` minus the `node` and script tokens, append the batch-file lines when
`--fromFile` was given (the file system is abstracted as `fs : path ↦
contents`), and exit with status 1 when no URLs were collected. -/
def parseArgs (fs : String → String) (argv : List String) : Except Nat Args :=
  (parseLoop (argv.drop 2) initArgs).bind fun a0 =>
    let a1 :=
      if truthy a0.fromFile then
        { a0 with urls := a0.urls ++ batchFileLines (fs (a0.fromFile.getD "")) }
      else a0
    if a1.urls = [] then .error 1 else .ok a1

/-- `chooseFormatInteractive(args)` (download.mjs lines 141-170), with the one
line the prompt would read passed in as `input`.  Returns the updated `args`
together with a flag recording whether the prompt was shown.  When `noPrompt`,
`formatProvided` or `audioOnly` holds, the function returns immediately and no
prompt is shown. -/
def chooseFormatInteractive (args : Args) (input : String) : Args × Bool :=
  if args.noPrompt || args.formatProvided || args.audioOnly then (args, false)
  else
    let choice := if jsTrim input = "" then "1" else jsTrim input
    if choice = "1" then
      ({ args with
         format := some "bestvideo[ext=mp4][height<=1080]+bestaudio[ext=m4a]/best[ext=mp4]" },
       true)
    else if choice = "2" then
      ({ args with
         format := some "bestvideo[ext=mp4][height<=720]+bestaudio[ext=m4a]/best[ext=mp4]" },
       true)
    else if choice = "3" then
      ({ args with
         format := some "bestvideo[ext=mp4][height<=480]+bestaudio[ext=m4a]/best[ext=mp4]" },
       true)
    else if choice = "4" then
      ({ args with audioOnly := true }, true)
    else
      ({ args with
         format := some "bestvideo[ext=mp4][height<=1080]+bestaudio[ext=m4a]/best[ext=mp4]" },
       true)

/-- `join(args.outDir, args.outTemplate)` — `path.join` modelled as
separator concatenation (normalisation, and the TypeError `path.join` raises
on `undefined`, are not modelled; no claim depends on them). -/
def pathJoin (a b : Option String) : String :=
  (a.getD "") ++ "/" ++ (b.getD "")

/-- The `ytdlpArgs` option bag built inside `downloadOne` (download.mjs lines
174-219).  A `Bool` field models the presence of a `{ key: true }` spread; an
`Option String` field is `none` when the corresponding spread contributed no
key. -/
structure YtdlpArgs where
  extractAudio : Bool
  audioFormat : Option String
  audioQuality : Option String
  format : Option String
  output : String
  noMtime : Bool
  fragmentRetries : Nat
  retries : Nat
  concurrentFragments : Nat
  yesPlaylist : Bool
  noPlaylist : Bool
  writeauto : Bool
  subLangs : Option String
  subFormat : Option String
  embedSubs : Bool
  limitRate : Option String
  cookies : Option String
  proxy : Option String
  addHeader : List String
  geoBypass : Bool
  noGeoBypass : Bool
  geoBypassCountry : Option String
  extractorArgs : Option String
  update : Bool
  noUpdate : Bool
  newline : Bool
deriving DecidableEq, Repr

/-- The option-bag construction of `downloadOne` (download.mjs lines 174-219),
a pure function of the resolved `args`. -/
def buildYtdlpArgs (args : Args) : YtdlpArgs where
  extractAudio := args.audioOnly
  audioFormat := if args.audioOnly then args.audioFormat else none
  audioQuality := if args.audioOnly then some "0" else none
  format := if args.audioOnly then none else some (jsOrStr args.format DEFAULT_FORMAT_FALLBACK)
  output := pathJoin args.outDir args.outTemplate
  noMtime := args.noMtime
  fragmentRetries := 10
  retries := 5
  concurrentFragments := 4
  yesPlaylist := args.playlist
  noPlaylist := !args.playlist
  writeauto := args.subs
  subLangs := if args.subs then args.subsLang else none
  subFormat := if args.subs then some "srt/best" else none
  embedSubs := args.subs && args.subsEmbed
  limitRate := keepTruthy args.rateLimit
  cookies := keepTruthy args.cookies
  proxy := keepTruthy args.proxy
  addHeader := ["User-Agent: Mozilla/5.0", "Accept-Language: en-US,en;q=0.9"]
  geoBypass := args.geoBypass
  noGeoBypass := !args.geoBypass
  geoBypassCountry := keepTruthy args.geoBypassCountry
  extractorArgs := keepTruthy args.extractorArgs
  update := args.update
  noUpdate := !args.update
  newline := true

/-- Terminal result of one job: the promise of `downloadOne` resolves
(success) or finally rejects (failure for that URL). -/
inductive JobOutcome where
  | success
  | failure (url : String)
deriving DecidableEq, Repr

/-- Decreasing measure for the `downloadOne` retry recursion: how many more
attempts the `attempt <= args.retries` guard can still admit. -/
def retryFuel (retries : JSNum) (attempt : Nat) : Nat :=
  match retries with
  | .nan => 0
  | .val n => (n + 1 - attempt).toNat

/-- The retry control flow of `downloadOne` (download.mjs lines 224-236)
starting from attempt number `attempt`, with the external downloader abstracted
as the oracle `succ : attempt number ↦ did the ytdl call succeed`.  Returns the
terminal outcome, the number of `ytdl` invocations performed, and the list of
backoff delays (in ms) awaited between consecutive attempts, in order. -/
def downloadOneFrom (succ : Nat → Bool) (retries : JSNum) (url : String)
    (attempt : Nat) : JobOutcome × Nat × List Nat :=
  if succ attempt then (.success, 1, [])
  else if jsLeNum attempt retries then
    let res := downloadOneFrom succ retries url (attempt + 1)
    (res.1, res.2.1 + 1, 1500 * attempt :: res.2.2)
  else (.failure url, 1, [])
termination_by retryFuel retries attempt
decreasing_by
  cases retries with
  | nan => simp [jsLeNum] at *
  | val n =>
    simp only [jsLeNum, decide_eq_true_eq] at *
    simp only [retryFuel]
    omega

/-- `downloadOne(url, args)` with the default `attempt = 1`
(download.mjs line 172). -/
def downloadOne (succ : Nat → Bool) (retries : JSNum) (url : String) :
    JobOutcome × Nat × List Nat :=
  downloadOneFrom succ retries url 1

/-!
The `run()` scheduler (download.mjs lines 239-287).  The event loop is
single-threaded, so `pump` (a synchronous admission burst) and the
`.finally(() => { active -= 1; pump(); })` continuation of a settling job are
atomic transitions.  State: the remaining `queue`, the list of in-flight URLs
(`running` — the code's `active` counter always equals its length, being
incremented exactly when a `downloadOne` promise is created and decremented
exactly when it settles), and the list of settled jobs with their outcome
(`true` = resolved, `false` = rejected; a rejection pushes the URL onto
`failures`).
-/

/-- Scheduler state for `run()`: pending queue, in-flight URLs, settled jobs
in settlement order (`Bool` is `true` for a success). -/
structure Sched where
  queue : List String
  running : List String
  settled : List (String × Bool)
deriving DecidableEq, Repr

/-- The `while (active < args.concurrent && queue.length > 0)` refill loop
inside `pump` (download.mjs lines 261-270): repeatedly shift the queue head
and start a job for it while the guard holds. -/
def pumpWhile (conc : JSNum) : List String → List String → List String × List String
  | [], running => ([], running)
  | u :: rest, running =>
    if jsLtNum running.length conc then pumpWhile conc rest (running ++ [u])
    else (u :: rest, running)

/-- `pump()` (download.mjs lines 250-271): return at once when the queue is
empty or `active >= args.concurrent` (false for NaN); otherwise admit the
queue head and run the refill loop. -/
def pump (conc : JSNum) (s : Sched) : Sched :=
  match s.queue with
  | [] => s
  | u :: rest =>
    if jsGeNum s.running.length conc then s
    else
      let p := pumpWhile conc rest (s.running ++ [u])
      { s with queue := p.1, running := p.2 }

/-- One event-loop transition of the running scheduler: some in-flight job
settles (with `ok = true` on resolve, `ok = false` on reject, in which case
its URL is pushed onto `failures`), `active` is decremented, and the
`.finally` handler immediately calls `pump()` again. -/
inductive SchedStep (conc : JSNum) : Sched → Sched → Prop
  | finish (s : Sched) (u : String) (ok : Bool) (h : u ∈ s.running) :
      SchedStep conc s
        (pump conc { queue := s.queue, running := s.running.erase u,
                     settled := s.settled ++ [(u, ok)] })

/-- The scheduler state right after `run()`'s first `await pump()`
(download.mjs line 273), starting from the url list of line 246. -/
def schedInit (conc : JSNum) (urls : List String) : Sched :=
  pump conc { queue := urls, running := [], settled := [] }

/-- States reachable by the event loop from the initial admission burst. -/
def SchedReach (conc : JSNum) (urls : List String) (s : Sched) : Prop :=
  Relation.ReflTransGen (SchedStep conc) (schedInit conc urls) s

/-- The drain condition of download.mjs line 276: the run is complete when
`active > 0 || queue.length > 0` fails. -/
def SchedDone (s : Sched) : Prop :=
  s.queue = [] ∧ s.running = []

/-- The `failures` array at a given scheduler state: URLs of rejected jobs in
settlement order (download.mjs line 255). -/
def failuresOf (s : Sched) : List String :=
  (s.settled.filter (fun p => !p.2)).map Prod.fst

/-- Exit status of `run()`'s final report (download.mjs lines 280-286):
`process.exit(2)` when `failures.length` is truthy, otherwise the process
falls off the end of `run()` and exits 0. -/
def reportExit (failures : List String) : Nat :=
  if failures.length ≠ 0 then 2 else 0

/-- The lines printed by the final report (download.mjs lines 280-286). -/
def reportLines (failures : List String) : List String :=
  if failures.length ≠ 0 then
    (s!"\nCompleted with {failures.length} failure(s):") ::
      failures.map (fun u => s!" - {u}")
  else
    ["\nAll downloads completed successfully."]

end Download

namespace Download

/-! ### Scheduler lemmas -/

/-- The refill loop moves some prefix `d` of the queue onto the end of the
running list and touches nothing else. -/
theorem pumpWhile_spec (conc : JSNum) :
    ∀ q running : List String, ∃ d : List String,
      q = d ++ (pumpWhile conc q running).1 ∧
      (pumpWhile conc q running).2 = running ++ d := by
  intro q
  induction q with
  | nil => intro running; exact ⟨[], by simp [pumpWhile]⟩
  | cons u rest ih =>
    intro running
    by_cases h : jsLtNum running.length conc = true
    · obtain ⟨d, hd1, hd2⟩ := ih (running ++ [u])
      refine ⟨u :: d, ?_, ?_⟩
      · simpa [pumpWhile, h] using hd1
      · simp only [pumpWhile, h, if_true, hd2, List.append_assoc, List.singleton_append]
    · exact ⟨[], by simp [pumpWhile, h]⟩

/-- The refill loop never grows the running list past the concurrency bound. -/
theorem pumpWhile_length_le (c : Int) :
    ∀ q running : List String, (running.length : Int) ≤ c →
      (((pumpWhile (.val c) q running).2).length : Int) ≤ c := by
  intro q
  induction q with
  | nil => intro running h; simpa [pumpWhile] using h
  | cons u rest ih =>
    intro running h
    by_cases hg : jsLtNum running.length (.val c) = true
    · have hlt : ((running.length : Int)) < c := by
        simpa [jsLtNum] using hg
      have : (((running ++ [u]).length : Int)) ≤ c := by
        simp only [List.length_append, List.length_singleton]
        push_cast
        omega
      simpa [pumpWhile, hg] using ih (running ++ [u]) this
    · simpa [pumpWhile, hg] using h

/-- `pump` moves some prefix `d` of the queue onto the running list and leaves
the settled list untouched. -/
theorem pump_spec (conc : JSNum) (s : Sched) :
    ∃ d : List String,
      s.queue = d ++ (pump conc s).queue ∧
      (pump conc s).running = s.running ++ d ∧
      (pump conc s).settled = s.settled := by
  obtain ⟨q, run, st⟩ := s
  cases q with
  | nil => exact ⟨[], by simp [pump]⟩
  | cons u rest =>
    by_cases hg : jsGeNum run.length conc = true
    · exact ⟨[], by simp [pump, hg]⟩
    · obtain ⟨d, hd1, hd2⟩ := pumpWhile_spec conc rest (run ++ [u])
      refine ⟨u :: d, ?_, ?_, ?_⟩
      · simpa [pump, hg] using hd1
      · simp only [pump, hg, if_false, Bool.false_eq_true, hd2, List.append_assoc,
          List.singleton_append]
      · simp [pump, hg]

/-- `pump` keeps the running list within the concurrency bound. -/
theorem pump_length_le (c : Int) (s : Sched) (h : (s.running.length : Int) ≤ c) :
    (((pump (.val c) s).running).length : Int) ≤ c := by
  obtain ⟨q, run, st⟩ := s
  cases q with
  | nil => simpa [pump] using h
  | cons u rest =>
    by_cases hg : jsGeNum run.length (.val c) = true
    · simpa [pump, hg] using h
    · have hlt : (run.length : Int) < c := by
        simp only [jsGeNum, decide_eq_true_eq] at hg
        omega
      have h1 : (((run ++ [u]).length : Int)) ≤ c := by
        simp only [List.length_append, List.length_singleton]
        push_cast
        omega
      simpa [pump, hg] using pumpWhile_length_le c rest (run ++ [u]) h1

/-- When the queue is nonempty and a slot is free, `pump` admits at least the
queue head: the queue shrinks strictly. -/
theorem pump_queue_lt (c : Int) (s : Sched) (hq : s.queue ≠ [])
    (h : (s.running.length : Int) < c) :
    (pump (.val c) s).queue.length < s.queue.length := by
  obtain ⟨q, run, st⟩ := s
  cases q with
  | nil => simp at hq
  | cons u rest =>
    have hg : jsGeNum run.length (.val c) = false := by
      simp only [jsGeNum, decide_eq_false_iff_not, not_le]
      simpa using h
    obtain ⟨d, hd1, _⟩ := pumpWhile_spec (.val c) rest (run ++ [u])
    have hlen := congrArg List.length hd1
    simp only [List.length_append] at hlen
    simp only [pump, hg, if_false, Bool.false_eq_true, List.length_cons]
    omega

/-- `pump` permutes the pending/in-flight/settled partition: it moves
locators but neither creates nor destroys them. -/
theorem pump_perm (conc : JSNum) (s : Sched) :
    ((pump conc s).queue ++ (pump conc s).running ++
      (pump conc s).settled.map Prod.fst).Perm
    (s.queue ++ s.running ++ s.settled.map Prod.fst) := by
  obtain ⟨d, hd1, hd2, hd3⟩ := pump_spec conc s
  rw [← Multiset.coe_eq_coe, hd2, hd3]
  rw [show s.queue = d ++ (pump conc s).queue from hd1]
  simp only [← Multiset.coe_add]
  abel

/-- A single settle-and-refill event permutes the partition, merely moving the
settling locator from in-flight to settled. -/
theorem schedStep_perm (conc : JSNum) {s t : Sched} (h : SchedStep conc s t) :
    (t.queue ++ t.running ++ t.settled.map Prod.fst).Perm
      (s.queue ++ s.running ++ s.settled.map Prod.fst) := by
  cases h with
  | finish u ok hu =>
    refine (pump_perm conc _).trans ?_
    rw [← Multiset.coe_eq_coe]
    have herase : ((s.running : List String) : Multiset String) =
        ↑[u] + ↑(s.running.erase u) := by
      rw [Multiset.coe_add]
      exact Multiset.coe_eq_coe.mpr (List.perm_cons_erase hu)
    simp only [List.map_append, List.map_cons, List.map_nil]
    simp only [← Multiset.coe_add]
    rw [herase]
    abel

/-- Every reachable scheduler state partitions the submitted locators exactly:
pending, in-flight, and settled locators together are a permutation of
`urls`. -/
theorem schedReach_perm (conc : JSNum) (urls : List String) (s : Sched)
    (h : SchedReach conc urls s) :
    (s.queue ++ s.running ++ s.settled.map Prod.fst).Perm urls := by
  induction h with
  | refl =>
    refine (pump_perm conc _).trans ?_
    simp
  | tail hsteps hstep ih =>
    exact (schedStep_perm conc hstep).trans ih

/-- The concurrency-bound invariant: from the initial admission burst onward,
the in-flight count never exceeds the configured limit `c ≥ 1`. -/
theorem schedReach_running_le (c : Int) (urls : List String) (s : Sched)
    (hc : 1 ≤ c) (h : SchedReach (.val c) urls s) :
    (s.running.length : Int) ≤ c := by
  induction h with
  | refl =>
    apply pump_length_le
    simp
    omega
  | tail hsteps hstep ih =>
    cases hstep with
    | finish u ok hu =>
      apply pump_length_le
      have := List.length_erase_of_mem hu
      simp only [this]
      omega

/-! ### Claim theorems: scheduler -/

/-- C1: for a configured concurrency limit `c ≥ 1`, in every reachable
scheduler state the number of in-flight `downloadOne` invocations (the
`active` counter, i.e. the length of the running list) is at most `c`;
moreover, the transition in which an in-flight job settles while the queue is
nonempty strictly shrinks the queue — the freed slot admits the next queued
locator immediately rather than waiting for a batch boundary. -/
theorem concurrency_bound (c : Int) (urls : List String) (s : Sched)
    (hc : 1 ≤ c) (hs : SchedReach (.val c) urls s) :
    (s.running.length : Int) ≤ c ∧
      ∀ u ok, u ∈ s.running → s.queue ≠ [] →
        (pump (.val c) { queue := s.queue, running := s.running.erase u,
                         settled := s.settled ++ [(u, ok)] }).queue.length
          < s.queue.length := by
  have hb := schedReach_running_le c urls s hc hs
  refine ⟨hb, ?_⟩
  intro u ok hu hq
  apply pump_queue_lt
  · exact hq
  · have := List.length_erase_of_mem hu
    simp only [this]
    have hpos : 0 < s.running.length := List.length_pos_of_mem hu
    omega

/-- C1 witness: a concrete run with limit 1 and two URLs. -/
theorem concurrency_bound_witness :
    ((schedInit (.val 1) ["a", "b"]).running.length : Int) ≤ 1 ∧
      (pump (.val 1) { queue := (schedInit (.val 1) ["a", "b"]).queue,
                       running := (schedInit (.val 1) ["a", "b"]).running.erase "a",
                       settled := (schedInit (.val 1) ["a", "b"]).settled ++ [("a", true)] }).queue.length
        < (schedInit (.val 1) ["a", "b"]).queue.length := by
  have h := concurrency_bound 1 ["a", "b"] (schedInit (.val 1) ["a", "b"])
    (by norm_num) Relation.ReflTransGen.refl
  exact ⟨h.1, h.2 "a" true (by decide) (by decide)⟩

/-- C2: in every reachable scheduler state the pending, in-flight and settled
locators together are exactly the submitted list (a permutation, so each
locator is claimed from the queue and started exactly once); when the run
declares completion (queue drained, no job in flight) the settled outcomes are
a permutation of the submitted locators and there are exactly `N = urls.length`
of them. -/
theorem locator_outcome_accounting (conc : JSNum) (urls : List String)
    (s : Sched) (hs : SchedReach conc urls s) :
    (s.queue ++ s.running ++ s.settled.map Prod.fst).Perm urls ∧
      (SchedDone s →
        (s.settled.map Prod.fst).Perm urls ∧ s.settled.length = urls.length) := by
  have hperm := schedReach_perm conc urls s hs
  refine ⟨hperm, fun hdone => ?_⟩
  obtain ⟨hq, hr⟩ := hdone
  rw [hq, hr] at hperm
  simp only [List.nil_append] at hperm
  refine ⟨hperm, ?_⟩
  have := hperm.length_eq
  simpa using this

/-- C2 witness: a concrete completed run over one URL with limit 1. -/
theorem locator_outcome_accounting_witness :
    (([] : List String) ++ [] ++ ([("a", false)].map Prod.fst)).Perm ["a"] ∧
      [("a", false)].length = (["a"] : List String).length := by
  have hreach : SchedReach (.val 1) ["a"]
      { queue := [], running := [], settled := [("a", false)] } := by
    have h0 : ("a" : String) ∈ (schedInit (.val 1) ["a"]).running := by decide
    exact Relation.ReflTransGen.single
      (SchedStep.finish (schedInit (.val 1) ["a"]) "a" false h0)
  have h := locator_outcome_accounting (.val 1) ["a"]
    { queue := [], running := [], settled := [("a", false)] } hreach
  exact ⟨h.1, (h.2 ⟨rfl, rfl⟩).2⟩

/-- C6: at completion of a reachable run, a non-empty failure collection makes
the final report print the failure count followed by the failed locators and
exit with status 2 (distinct from the configuration-error status 1); an empty
failure collection prints the success message and exits with status 0.  Every
reported failed locator is one of the submitted locators, and the collection
is empty exactly when every settled outcome was a success. -/
theorem run_final_report (conc : JSNum) (urls : List String) (s : Sched)
    (hs : SchedReach conc urls s) (hdone : SchedDone s) :
    (failuresOf s ≠ [] →
      reportExit (failuresOf s) = 2 ∧ reportExit (failuresOf s) ≠ 1 ∧
        reportLines (failuresOf s) =
          (s!"\nCompleted with {(failuresOf s).length} failure(s):") ::
            (failuresOf s).map (fun u => s!" - {u}")) ∧
    (failuresOf s = [] →
      reportExit (failuresOf s) = 0 ∧
        reportLines (failuresOf s) = ["\nAll downloads completed successfully."]) ∧
    (∀ u ∈ failuresOf s, u ∈ urls) ∧
    (failuresOf s = [] ↔ ∀ p ∈ s.settled, p.2 = true) := by
  have hperm := (locator_outcome_accounting conc urls s hs).2 hdone
  refine ⟨fun hne => ?_, fun he => ?_, fun u hu => ?_, ?_⟩
  · have hlen : (failuresOf s).length ≠ 0 := by
      simpa [List.length_eq_zero] using hne
    simp [reportExit, reportLines, hlen]
  · simp [reportExit, reportLines, he]
  · have hset : u ∈ s.settled.map Prod.fst := by
      simp only [failuresOf, List.mem_map] at hu
      obtain ⟨p, hp, hpu⟩ := hu
      exact List.mem_map.mpr ⟨p, List.mem_of_mem_filter hp, hpu⟩
    exact hperm.1.mem_iff.mp hset
  · constructor
    · intro he p hp
      by_contra hfalse
      have : p.1 ∈ failuresOf s := by
        simp only [failuresOf, List.mem_map]
        refine ⟨p, List.mem_filter.mpr ⟨hp, ?_⟩, rfl⟩
        simp [Bool.eq_false_iff.mpr hfalse]
      simp [he] at this
    · intro hall
      simp only [failuresOf, List.map_eq_nil_iff, List.filter_eq_nil_iff]
      intro p hp
      simp [hall p hp]

/-- C6 witness: a concrete completed run with one failed URL. -/
theorem run_final_report_witness :
    reportExit (failuresOf { queue := [], running := [], settled := [("a", false)] }) = 2 ∧
      reportExit (failuresOf { queue := [], running := [], settled := [("a", false)] }) ≠ 1 := by
  have hreach : SchedReach (.val 1) ["a"]
      { queue := [], running := [], settled := [("a", false)] } := by
    have h0 : ("a" : String) ∈ (schedInit (.val 1) ["a"]).running := by decide
    exact Relation.ReflTransGen.single
      (SchedStep.finish (schedInit (.val 1) ["a"]) "a" false h0)
  have h := (run_final_report (.val 1) ["a"]
    { queue := [], running := [], settled := [("a", false)] } hreach
    ⟨rfl, rfl⟩).1 (by decide)
  exact ⟨h.1, h.2.1⟩

end Download

namespace Download

/-! ### Parser lemmas -/

/-- The only `process.exit` the option loop performs is `exit(1)` on an
unknown flag. -/
theorem parseLoop_error_eq_one (l : List String) (a : Args) :
    ∀ e, parseLoop l a = .error e → e = 1 := by
  induction l, a using parseLoop.induct <;> intro e he <;>
    rw [parseLoop.eq_def] at he <;> simp_all

/-- The option loop only ever appends to `urls`: positional locators come out
in encounter order after whatever was already collected. -/
theorem parseLoop_urls_append (l : List String) (a : Args) :
    ∀ a', parseLoop l a = .ok a' → ∃ extra, a'.urls = a.urls ++ extra := by
  induction l, a using parseLoop.induct <;> intro a' ha <;>
    rw [parseLoop.eq_def] at ha <;> simp [*] at ha
  all_goals try (subst ha; exact ⟨[], by simp⟩)
  all_goals rename ∀ x : Args, _ => ih
  all_goals try exact ih _ ha
  all_goals rename String => v
  all_goals obtain ⟨extra, hex⟩ := ih _ ha
  all_goals exact ⟨v :: extra, by rw [hex]; simp⟩

/-- `formatProvided` is only ever set (by `--format`), and while it stays
false the stored `format` is untouched. -/
theorem parseLoop_format_stable (l : List String) (a : Args) :
    ∀ a', parseLoop l a = .ok a' →
      (a.formatProvided = true → a'.formatProvided = true) ∧
      (a'.formatProvided = false → a'.format = a.format) := by
  induction l, a using parseLoop.induct <;> intro a' ha <;>
    rw [parseLoop.eq_def] at ha <;> simp_all
  all_goals try (subst ha; simp)

/-- Decomposition of a successful `parseArgs`: the option loop succeeded,
batch-file lines were appended exactly when `--fromFile` resolved truthy, and
the final URL list is nonempty. -/
theorem parseArgs_ok_decomp (fs : String → String) (argv : List String)
    (args : Args) (h : parseArgs fs argv = .ok args) :
    ∃ a0, parseLoop (argv.drop 2) initArgs = .ok a0 ∧
      args = (if truthy a0.fromFile then
          { a0 with urls := a0.urls ++ batchFileLines (fs (a0.fromFile.getD "")) }
        else a0) ∧
      args.urls ≠ [] := by
  unfold parseArgs at h
  cases hp : parseLoop (argv.drop 2) initArgs with
  | error e =>
    rw [hp] at h
    simp [Except.bind] at h
  | ok a0 =>
    rw [hp] at h
    simp only [Except.bind] at h
    by_cases htr : truthy a0.fromFile = true
    case pos =>
      rw [if_pos htr] at h
      split at h
      next hemp => exact absurd h (by simp)
      next hemp =>
        simp only [Except.ok.injEq] at h
        refine ⟨a0, rfl, ?_, ?_⟩
        · rw [← h, if_pos htr]
        · rw [← h]
          exact hemp
    case neg =>
      rw [if_neg htr] at h
      split at h
      next hemp => exact absurd h (by simp)
      next hemp =>
        simp only [Except.ok.injEq] at h
        refine ⟨a0, rfl, ?_, ?_⟩
        · rw [← h, if_neg htr]
        · rw [← h]
          exact hemp

/-- `parseArgs` fails only with exit status 1. -/
theorem parseArgs_error_eq_one (fs : String → String) (argv : List String)
    (e : Nat) (h : parseArgs fs argv = .error e) : e = 1 := by
  unfold parseArgs at h
  cases hp : parseLoop (argv.drop 2) initArgs with
  | error e0 =>
    rw [hp] at h
    simp only [Except.bind, Except.error.injEq] at h
    subst h
    exact parseLoop_error_eq_one _ _ e0 hp
  | ok a0 =>
    rw [hp] at h
    simp only [Except.bind] at h
    split_ifs at h <;> (simp only [Except.error.injEq] at h; omega)

/-! ### Claim theorems: parsing and configuration errors -/

/-- C4 counterexample: an unparseable numeric value (`--retries abc`) and a
non-positive concurrency (`--concurrent 0`) are accepted by `parseArgs`
(storing NaN resp. 0) instead of being reported and exiting with the
usage-error status as the claim states. -/
theorem config_error_exit_cex :
    parseArgs (fun _ => "") ["node", "script", "--retries", "abc", "u1"] =
      .ok { initArgs with urls := ["u1"], retries := .nan } ∧
    parseArgs (fun _ => "") ["node", "script", "--concurrent", "0", "u1"] =
      .ok { initArgs with urls := ["u1"], concurrent := .val 0 } :=
  ⟨rfl, rfl⟩

/-- C4 (amended): configuration errors that `parseArgs` does detect — an
unknown flag, or no locators resolved — are reported with exit status 1, and
status 1 is the only parse-time exit; but an unparseable numeric value for
`--retries`/`--concurrent` is stored as NaN without any error, and a
non-positive `--concurrent` is accepted as well. -/
theorem config_error_exit (fs : String → String) (argv : List String) :
    (∀ e, parseArgs fs argv = .error e → e = 1) ∧
    (∀ args, parseArgs fs argv = .ok args → args.urls ≠ []) ∧
    parseArgs (fun _ => "") ["node", "script", "-x", "u1"] = .error 1 ∧
    parseArgs (fun _ => "") ["node", "script"] = .error 1 ∧
    parseArgs (fun _ => "") ["node", "script", "--retries", "abc", "u1"] =
      .ok { initArgs with urls := ["u1"], retries := .nan } ∧
    parseArgs (fun _ => "") ["node", "script", "--concurrent", "0", "u1"] =
      .ok { initArgs with urls := ["u1"], concurrent := .val 0 } := by
  refine ⟨fun e he => parseArgs_error_eq_one fs argv e he, fun args ha => ?_,
    rfl, rfl, rfl, rfl⟩
  obtain ⟨a0, -, -, hne⟩ := parseArgs_ok_decomp fs argv args ha
  exact hne

/-- C4 witness: the amended theorem applied at concrete erroneous and
accepted invocations. -/
theorem config_error_exit_witness : (1 : Nat) = 1 ∧ (["u1"] : List String) ≠ [] := by
  constructor
  · exact (config_error_exit (fun _ => "") ["node", "script", "-x", "u1"]).1 1 rfl
  · exact (config_error_exit (fun _ => "") ["node", "script", "--retries", "abc", "u1"]).2.1
      { initArgs with urls := ["u1"], retries := .nan } rfl

end Download

namespace Download

/-! ### Claim theorems: option resolution and locator assembly -/

/-- C5: for any parsed configuration, (a) with `--audio` no interactive
prompt is shown; (b) with `--format X` no prompt is shown and the resolved
selector (the configuration's format after resolution) equals the stored X;
(c) with neither `--format` nor `--audio` but with `--noPrompt`, no prompt is
shown and the job descriptor uses the 1080p-capped fallback selector. -/
theorem option_resolution_bypass (fs : String → String) (argv : List String)
    (args : Args) (input : String) (hp : parseArgs fs argv = .ok args) :
    (args.audioOnly = true → (chooseFormatInteractive args input).2 = false) ∧
    (args.formatProvided = true →
      (chooseFormatInteractive args input).2 = false ∧
      (chooseFormatInteractive args input).1.format = args.format) ∧
    (args.formatProvided = false → args.audioOnly = false → args.noPrompt = true →
      (chooseFormatInteractive args input).2 = false ∧
      (buildYtdlpArgs (chooseFormatInteractive args input).1).format =
        some DEFAULT_FORMAT_FALLBACK) := by
  refine ⟨fun ha => ?_, fun hf => ⟨?_, ?_⟩, fun hf ha hn => ⟨?_, ?_⟩⟩
  · simp [chooseFormatInteractive, ha]
  · simp [chooseFormatInteractive, hf]
  · simp [chooseFormatInteractive, hf]
  · simp [chooseFormatInteractive, hn]
  · have hfmt : args.format = none := by
      obtain ⟨a0, hloop, hargs, -⟩ := parseArgs_ok_decomp fs argv args hp
      have hst := parseLoop_format_stable _ _ a0 hloop
      have hffp : args.formatProvided = a0.formatProvided := by
        rw [hargs]
        split_ifs <;> rfl
      have hffmt : args.format = a0.format := by
        rw [hargs]
        split_ifs <;> rfl
      rw [hffmt, (hst.2 (by rw [← hffp]; exact hf) : a0.format = initArgs.format)]
      rfl
    simp [chooseFormatInteractive, hn, buildYtdlpArgs, ha, hfmt, jsOrStr]

/-- C5 witness: concrete invocations exercising each bypass clause. -/
theorem option_resolution_bypass_witness :
    ((chooseFormatInteractive { initArgs with urls := ["u1"], noPrompt := true } "").2 = false ∧
      (buildYtdlpArgs (chooseFormatInteractive
        { initArgs with urls := ["u1"], noPrompt := true } "").1).format =
          some DEFAULT_FORMAT_FALLBACK) ∧
    ((chooseFormatInteractive { initArgs with urls := ["u1"], format := some "X", formatProvided := true } "2").2 = false ∧
      (chooseFormatInteractive { initArgs with urls := ["u1"], format := some "X", formatProvided := true } "2").1.format = some "X") := by
  constructor
  · exact (option_resolution_bypass (fun _ => "") ["node", "script", "--noPrompt", "u1"]
      { initArgs with urls := ["u1"], noPrompt := true } "" rfl).2.2 rfl rfl rfl
  · exact (option_resolution_bypass (fun _ => "") ["node", "script", "--format", "X", "u1"]
      { initArgs with urls := ["u1"], format := some "X", formatProvided := true } "2" rfl).2.1 rfl

/-- C9: the locator list of a successful parse is the positional locators (in
encounter order, the loop only ever appending) followed by the batch-file
lines; batch lines are trimmed, keep their file order (a sublist of the
trimmed split), never contain a blank line, and duplicates are kept (counts
add up, no deduplication). -/
theorem locator_assembly (fs : String → String) (argv : List String)
    (args : Args) (hp : parseArgs fs argv = .ok args) :
    (∃ a0, parseLoop (argv.drop 2) initArgs = .ok a0 ∧
      args.urls = a0.urls ++
        (if truthy a0.fromFile then batchFileLines (fs (a0.fromFile.getD "")) else []) ∧
      (∀ u, args.urls.count u = a0.urls.count u +
        (if truthy a0.fromFile then
          (batchFileLines (fs (a0.fromFile.getD ""))).count u else 0))) ∧
    (∀ l a a', parseLoop l a = .ok a' → ∃ extra, a'.urls = a.urls ++ extra) ∧
    (∀ data, "" ∉ batchFileLines data) ∧
    (∀ data, (batchFileLines data).Sublist ((splitJsLines data).map jsTrim)) := by
  refine ⟨?_, parseLoop_urls_append, fun data => ?_, fun data => ?_⟩
  · obtain ⟨a0, hloop, hargs, -⟩ := parseArgs_ok_decomp fs argv args hp
    refine ⟨a0, hloop, ?_⟩
    have hurls : args.urls = a0.urls ++
        (if truthy a0.fromFile then batchFileLines (fs (a0.fromFile.getD "")) else []) := by
      rw [hargs]
      split_ifs <;> simp
    refine ⟨hurls, fun u => ?_⟩
    rw [hurls, List.count_append]
    split_ifs <;> simp
  · simp [batchFileLines]
  · exact List.filter_sublist _

/-- C9 witness: a concrete invocation with one positional locator and a batch
file containing a blank line, a whitespace-only line, and a duplicate. -/
theorem locator_assembly_witness :
    ∃ a0, parseLoop ["u1", "--fromFile", "urls.txt"] initArgs = .ok a0 ∧
      ({ initArgs with urls := ["u1", "a", "u1"], fromFile := some "urls.txt" } : Args).urls = a0.urls ++
        (if truthy a0.fromFile then
          batchFileLines ((fun f => if f = "urls.txt" then "a\r\n\n  \nu1" else "") (a0.fromFile.getD ""))
        else []) ∧
      (∀ u, (({ initArgs with urls := ["u1", "a", "u1"], fromFile := some "urls.txt" } : Args).urls.count u = a0.urls.count u +
        (if truthy a0.fromFile then
          (batchFileLines ((fun f => if f = "urls.txt" then "a\r\n\n  \nu1" else "")
            (a0.fromFile.getD ""))).count u else 0))) :=
  (locator_assembly (fun f => if f = "urls.txt" then "a\r\n\n  \nu1" else "")
    ["node", "script", "u1", "--fromFile", "urls.txt"]
    { initArgs with urls := ["u1", "a", "u1"], fromFile := some "urls.txt" } rfl).1

/-- C10: a value-taking flag (`--format`, `--retries`, `--outDir`) as the last
argv token does not make parsing fail: the loop stores `undefined` (`none` —
NaN after `Number(...)` for `--retries`) and returns; in particular a trailing
`--format` sets `formatProvided`, so the prompt is skipped, yet the built
descriptor falls back to the default 1080p selector because the stored format
is undefined. -/
theorem trailing_value_flag (a : Args) (input : String) :
    parseLoop ["--format"] a = .ok { a with format := none, formatProvided := true } ∧
    parseLoop ["--retries"] a = .ok { a with retries := .nan } ∧
    parseLoop ["--outDir"] a = .ok { a with outDir := none } ∧
    jsNumber none = .nan ∧
    parseArgs (fun _ => "") ["node", "script", "u1", "--format"] =
      .ok { initArgs with urls := ["u1"], format := none, formatProvided := true } ∧
    (chooseFormatInteractive { initArgs with urls := ["u1"], format := none, formatProvided := true } input).2 = false ∧
    (buildYtdlpArgs (chooseFormatInteractive { initArgs with urls := ["u1"], format := none, formatProvided := true } input).1).format =
      some DEFAULT_FORMAT_FALLBACK := by
  refine ⟨rfl, rfl, rfl, rfl, rfl, ?_, ?_⟩ <;>
    simp [chooseFormatInteractive, buildYtdlpArgs, jsOrStr, initArgs]

end Download

namespace Download

/-! ### Retry wrapper lemmas -/

/-- When every attempt fails, `downloadOne` from attempt `a ≤ r + 1` performs
the remaining `r + 2 - a` attempts, sleeps `1500·k` ms after each failing
attempt `k` that still has retries left, and ends in `Failure`. -/
theorem downloadOneFrom_allFail (succ : Nat → Bool) (url : String) (r : Nat)
    (hf : ∀ k, succ k = false) :
    ∀ n a, 1 ≤ a → a ≤ r + 1 → r + 1 - a = n →
      downloadOneFrom succ (.val r) url a =
        (.failure url, r + 2 - a, (List.range' a (r + 1 - a)).map (fun k => 1500 * k)) := by
  intro n
  induction n with
  | zero =>
    intro a h1 h2 hn
    have ha : a = r + 1 := by omega
    subst ha
    rw [downloadOneFrom]
    simp [hf, jsLeNum]
  | succ n ih =>
    intro a h1 h2 hn
    have ha : a ≤ r := by omega
    rw [downloadOneFrom]
    have hle : jsLeNum a (.val r) = true := by
      simp [jsLeNum]
      omega
    simp only [hf, Bool.false_eq_true, if_false, hle, if_true]
    rw [ih (a + 1) (by omega) (by omega) (by omega)]
    have hrange : List.range' a (r + 1 - a) = a :: List.range' (a + 1) (r - a) := by
      have : r + 1 - a = (r - a) + 1 := by omega
      rw [this, List.range'_succ]
    have h2 : r + 1 - (a + 1) = r - a := by omega
    simp only [hrange, List.map_cons, h2, Prod.mk.injEq]
    refine ⟨trivial, by omega, trivial⟩

/-- When attempt `k` is the first to succeed, `downloadOne` from attempt
`a ≤ k` performs attempts `a..k`, sleeps after each failing one, and ends in
`Success`. -/
theorem downloadOneFrom_firstSucc (succ : Nat → Bool) (url : String) (r k : Nat)
    (hk2 : k ≤ r + 1) (hs : succ k = true)
    (hf : ∀ j, 1 ≤ j → j < k → succ j = false) :
    ∀ n a, 1 ≤ a → a ≤ k → k - a = n →
      downloadOneFrom succ (.val r) url a =
        (.success, k + 1 - a, (List.range' a (k - a)).map (fun j => 1500 * j)) := by
  intro n
  induction n with
  | zero =>
    intro a h1 h2 hn
    have ha : a = k := by omega
    subst ha
    rw [downloadOneFrom]
    simp [hs]
  | succ n ih =>
    intro a h1 h2 hn
    have ha : a < k := by omega
    have hfa : succ a = false := hf a h1 ha
    have hle : jsLeNum a (.val r) = true := by
      simp [jsLeNum]
      omega
    rw [downloadOneFrom]
    simp only [hfa, Bool.false_eq_true, if_false, hle, if_true]
    rw [ih (a + 1) (by omega) (by omega) (by omega)]
    have hrange : List.range' a (k - a) = a :: List.range' (a + 1) (k - (a + 1)) := by
      have : k - a = (k - (a + 1)) + 1 := by omega
      rw [this, List.range'_succ]
    simp only [hrange, List.map_cons, Prod.mk.injEq]
    refine ⟨trivial, by omega, trivial⟩

/-! ### Claim theorems: retry policy and job descriptor -/

/-- C3: for every retry limit `r ≥ 0`, if the external call fails on every
attempt, `downloadOne` performs exactly `r + 1` attempts with the backoff
delays `1500·1, 1500·2, …, 1500·r` ms between consecutive attempts and yields
`Failure`; if the external call first succeeds on attempt `k ≤ r + 1`, exactly
`k` attempts occur (with delays `1500·1, …, 1500·(k-1)`) and the outcome is
`Success`. -/
theorem downloadOne_retry_policy (succ : Nat → Bool) (r : Nat) (url : String) :
    ((∀ k, succ k = false) →
      downloadOne succ (.val r) url =
        (.failure url, r + 1, (List.range' 1 r).map (fun k => 1500 * k))) ∧
    (∀ k, 1 ≤ k → k ≤ r + 1 → succ k = true →
      (∀ j, 1 ≤ j → j < k → succ j = false) →
      downloadOne succ (.val r) url =
        (.success, k, (List.range' 1 (k - 1)).map (fun j => 1500 * j))) := by
  constructor
  · intro hf
    have h := downloadOneFrom_allFail succ url r hf r 1 (by omega) (by omega) (by omega)
    simpa [downloadOne] using h
  · intro k hk1 hk2 hs hf
    have h := downloadOneFrom_firstSucc succ url r k hk2 hs hf (k - 1) 1
      (by omega) (by omega) (by omega)
    have h1 : k + 1 - 1 = k := by omega
    rw [downloadOne, h, h1]

/-- C3 witness: retries = 2; with an always-failing call there are 3 attempts
and delays 1500 ms then 3000 ms; with a call that first succeeds on attempt 2
there are 2 attempts and one 1500 ms delay. -/
theorem downloadOne_retry_policy_witness :
    downloadOne (fun _ => false) (.val 2) "u" = (.failure "u", 3, [1500, 3000]) ∧
    downloadOne (fun a => a == 2) (.val 2) "u" = (.success, 2, [1500]) := by
  constructor
  · have h := (downloadOne_retry_policy (fun _ => false) 2 "u").1 (fun _ => rfl)
    simpa [List.range'] using h
  · have h := (downloadOne_retry_policy (fun a => a == 2) 2 "u").2 2
      (by omega) (by omega) (by decide) (by decide)
    simpa [List.range'] using h

/-- C7 counterexample: with `--geo AU` (and the default geo-bypass flag left
on), the built descriptor contains both the geo-bypass enable flag and the
specific country code simultaneously, contradicting their claimed mutual
exclusion. -/
theorem descriptor_geo_exclusive_cex :
    parseArgs (fun _ => "") ["node", "script", "--geo", "AU", "u1"] =
      .ok { initArgs with urls := ["u1"], geoBypassCountry := some "AU" } ∧
    (buildYtdlpArgs { initArgs with urls := ["u1"], geoBypassCountry := some "AU" }).geoBypass = true ∧
    (buildYtdlpArgs { initArgs with urls := ["u1"], geoBypassCountry := some "AU" }).geoBypassCountry = some "AU" :=
  ⟨rfl, rfl, rfl⟩

/-- C7 (amended): the descriptor always carries exactly one of each boolean
pair — `yes-playlist`/`no-playlist`, `update`/`no-update`,
`geoBypass`/`noGeoBypass` — but the geo-bypass enable flag is not mutually
exclusive with the country code: whenever the geo-bypass flag is set (its
default) and a truthy `--geo` country is given, both fields are emitted
together. -/
theorem descriptor_exclusive_pairs (args : Args) :
    ((buildYtdlpArgs args).yesPlaylist = !(buildYtdlpArgs args).noPlaylist) ∧
    ((buildYtdlpArgs args).update = !(buildYtdlpArgs args).noUpdate) ∧
    ((buildYtdlpArgs args).geoBypass = !(buildYtdlpArgs args).noGeoBypass) ∧
    (args.geoBypass = true → truthy args.geoBypassCountry = true →
      (buildYtdlpArgs args).geoBypass = true ∧
      (buildYtdlpArgs args).geoBypassCountry = args.geoBypassCountry) := by
  refine ⟨by simp [buildYtdlpArgs], by simp [buildYtdlpArgs], by simp [buildYtdlpArgs],
    fun hg ht => ⟨by simp [buildYtdlpArgs, hg], by simp [buildYtdlpArgs, keepTruthy, ht]⟩⟩

/-- C7 witness: the amended theorem applied to the `--geo AU` configuration. -/
theorem descriptor_exclusive_pairs_witness :
    (buildYtdlpArgs { initArgs with urls := ["u1"], geoBypassCountry := some "AU" }).geoBypass = true ∧
    (buildYtdlpArgs { initArgs with urls := ["u1"], geoBypassCountry := some "AU" }).geoBypassCountry = some "AU" :=
  (descriptor_exclusive_pairs { initArgs with urls := ["u1"], geoBypassCountry := some "AU" }).2.2.2 rfl rfl

/-- C8: when both `--audio` and `--format` are supplied, audio-only mode takes
precedence: no prompt is shown, and the descriptor built for every job carries
the audio-extraction fields (`extractAudio`, the audio format, quality "0")
and no `format` selector at all. -/
theorem audio_precedence (args : Args) (input : String)
    (ha : args.audioOnly = true) (hf : args.formatProvided = true) :
    (chooseFormatInteractive args input).2 = false ∧
    (buildYtdlpArgs args).extractAudio = true ∧
    (buildYtdlpArgs args).format = none ∧
    (buildYtdlpArgs args).audioFormat = args.audioFormat ∧
    (buildYtdlpArgs args).audioQuality = some "0" := by
  refine ⟨?_, ?_, ?_, ?_, ?_⟩ <;> simp [chooseFormatInteractive, buildYtdlpArgs, ha, hf]

/-- C8 witness: the concrete invocation `--audio --format X`. -/
theorem audio_precedence_witness :
    parseArgs (fun _ => "") ["node", "script", "--audio", "--format", "X", "u1"] =
      .ok { initArgs with urls := ["u1"], format := some "X", formatProvided := true, audioOnly := true } ∧
    (buildYtdlpArgs { initArgs with urls := ["u1"], format := some "X", formatProvided := true, audioOnly := true }).format = none ∧
    (buildYtdlpArgs { initArgs with urls := ["u1"], format := some "X", formatProvided := true, audioOnly := true }).extractAudio = true := by
  refine ⟨rfl, ?_, ?_⟩
  · exact (audio_precedence { initArgs with urls := ["u1"], format := some "X", formatProvided := true, audioOnly := true } "" rfl rfl).2.2.1
  · exact (audio_precedence { initArgs with urls := ["u1"], format := some "X", formatProvided := true, audioOnly := true } "" rfl rfl).2.1

end Download
